import Mathlib

/-!
Shallow embedding of the Yield Reporting Engine of `milking_streamlit.py`.

The two tables `animals` and `milk_yield` become lists of structures, and each
SQL / pandas step of `load_animals`, `farm_yield_summary`,
`animal_yield_summary`, the last-6-months detail query and the CSV export
becomes a Lean function on those lists:

* `record_date` is stored as ISO `YYYY-MM-DD` text; SQL comparisons on it are
  lexicographic on the zero-padded string, i.e. lexicographic on the parsed
  (year, month, day) triple, which the embedding uses directly (`dateLe`).
* `strftime('%Y-%m', record_date)` becomes the (year, month) pair `monthKey`,
  and the lexicographic order of `YYYY-MM` strings becomes `monthLe`.
* Python's subtraction of a `timedelta` of n days is proleptic-Gregorian day
  arithmetic; `dayNum`/`dateOfDayNum` are the standard civil-from-days
  conversions (they differ from `date.toordinal` by the constant 305, which
  cancels in every difference the program takes).
* `REAL` yield values are modelled as exact rationals; `SUM` over no rows
  with `COALESCE(.., 0)` is the empty list sum `0`; `COUNT(DISTINCT c)` is
  the length of `List.dedup`.
* pandas `.round(n)` and Python's `"{:,.0f}"`/`"{:,.1f}"` formatting round
  half-to-even (`rhe`); SQLite's `ROUND` rounds half away from zero
  (`sqlRound1`).
* `GROUP BY k ... ORDER BY k` produces one row per distinct key, keys in
  ascending order: modelled as `insertionSort` of the `dedup` of the keys.
* the pandas merge of `df_12mo` with `df_count` on the month key, a left
  join, followed by `fillna(0)`, gives a 0 default for a missing right
  partner (`mergeTrend`).
-/

namespace Milk

/-- A calendar date as stored in the `record_date` column. SQL string
comparison of zero-padded ISO dates is lexicographic on this triple. -/
structure Date where
  y : Nat
  m : Nat
  d : Nat
deriving DecidableEq, Repr

/-- SQL `<=` on ISO-date text: lexicographic on (year, month, day). -/
def dateLe (a b : Date) : Prop :=
  a.y < b.y ∨ (a.y = b.y ∧ (a.m < b.m ∨ (a.m = b.m ∧ a.d ≤ b.d)))

/-- Strict version of `dateLe`. -/
def dateLt (a b : Date) : Prop :=
  a.y < b.y ∨ (a.y = b.y ∧ (a.m < b.m ∨ (a.m = b.m ∧ a.d < b.d)))

instance : DecidableRel dateLe := fun a b => by unfold dateLe; infer_instance

instance : DecidableRel dateLt := fun a b => by unfold dateLt; infer_instance

instance : IsTotal Date dateLe := ⟨by intro a b; unfold dateLe; omega⟩

instance : IsTrans Date dateLe := ⟨by intro a b c; unfold dateLe; omega⟩

/-- The `strftime('%Y-%m', record_date)` month bucket of a date. -/
def monthKey (dt : Date) : Nat × Nat := (dt.y, dt.m)

/-- Lexicographic order of `YYYY-MM` month strings on (year, month) pairs. -/
def monthLe (a b : Nat × Nat) : Prop := a.1 < b.1 ∨ (a.1 = b.1 ∧ a.2 ≤ b.2)

/-- Strict version of `monthLe`. -/
def monthLt (a b : Nat × Nat) : Prop := a.1 < b.1 ∨ (a.1 = b.1 ∧ a.2 < b.2)

instance : DecidableRel monthLe := fun a b => by unfold monthLe; infer_instance

instance : DecidableRel monthLt := fun a b => by unfold monthLt; infer_instance

instance : IsTotal (Nat × Nat) monthLe := ⟨by intro a b; unfold monthLe; omega⟩

instance : IsTrans (Nat × Nat) monthLe := ⟨by intro a b c; unfold monthLe; omega⟩

/-- Proleptic-Gregorian leap year, as Python's `datetime` uses. -/
def leapYear (y : Nat) : Prop := y % 4 = 0 ∧ (¬y % 100 = 0 ∨ y % 400 = 0)

instance : DecidablePred leapYear := fun y => by unfold leapYear; infer_instance

/-- Length of a calendar month. -/
def daysInMonth (y m : Nat) : Nat :=
  if m = 2 then (if leapYear y then 29 else 28)
  else if m = 4 ∨ m = 6 ∨ m = 9 ∨ m = 11 then 30
  else 31

/-- The date is a real proleptic-Gregorian calendar day (what Python's
`pd.to_datetime` accepts without raising). -/
def Date.valid (dt : Date) : Prop :=
  1 ≤ dt.y ∧ 1 ≤ dt.m ∧ dt.m ≤ 12 ∧ 1 ≤ dt.d ∧ dt.d ≤ daysInMonth dt.y dt.m

instance : DecidablePred Date.valid := fun dt => by unfold Date.valid; infer_instance

/-- Shifted year of the civil-from-days conversion: the year whose "day zero"
is March 1, so the leap day is the last day of the shifted year. -/
def shiftY (dt : Date) : Nat := if dt.m ≤ 2 then dt.y - 1 else dt.y

/-- Shifted month index: March ↦ 0, ..., December ↦ 9, January ↦ 10,
February ↦ 11. -/
def mpOf (dt : Date) : Nat := (dt.m + 9) % 12

/-- Day of the shifted year, 0-based (March 1 ↦ 0). -/
def doyOf (dt : Date) : Nat := (153 * mpOf dt + 2) / 5 + (dt.d - 1)

/-- Days from shifted-year 0 (i.e. from 0000-03-01) to the start of shifted
year `yy`. -/
def yearStart (yy : Nat) : Nat :=
  (yy / 400) * 146097 + (yy % 400 * 365 + yy % 400 / 4 - yy % 400 / 100)

/-- Day number of a date, counted from 0000-03-01 (standard days-from-civil
algorithm; `date.toordinal` is this minus 306, so differences agree with
Python's `(d1 - d0).days`). -/
def dayNum (dt : Date) : Nat := yearStart (shiftY dt) + doyOf dt

/-- Inverse of `dayNum` (standard civil-from-days algorithm). -/
def dateOfDayNum (z : Nat) : Date :=
  let era := z / 146097
  let doe := z % 146097
  let yoe := (doe - doe / 1460 + doe / 36524 - doe / 146096) / 365
  let doy := doe - (365 * yoe + yoe / 4 - yoe / 100)
  let mp := (5 * doy + 2) / 153
  let d := doy - (153 * mp + 2) / 5 + 1
  let m := if mp < 10 then mp + 3 else mp - 9
  ⟨(if m ≤ 2 then yoe + era * 400 + 1 else yoe + era * 400), m, d⟩

/-- Python's subtraction of a `timedelta` of `n` days from a date. -/
def subDays (dt : Date) (n : Nat) : Date := dateOfDayNum (dayNum dt - n)

/-- Round half-to-even to an integer: the rounding of pandas `.round(0)` /
`.astype(int)` and of Python's `"{:,.0f}"` format (floats modelled as exact
rationals). -/
def rhe (q : ℚ) : ℤ :=
  let f := ⌊q⌋
  if q - (f : ℚ) < 1/2 then f
  else if 1/2 < q - (f : ℚ) then f + 1
  else if f % 2 = 0 then f else f + 1

/-- pandas `.round(1)`: round half-to-even at the first decimal. -/
def pandasRound1 (q : ℚ) : ℚ := (rhe (10 * q) : ℚ) / 10

/-- SQLite `ROUND(x, 1)`: round half away from zero at the first decimal. -/
def sqlRound1 (q : ℚ) : ℚ :=
  if q < 0 then -((⌊-(10 * q) + 1/2⌋ : ℚ) / 10) else (⌊10 * q + 1/2⌋ : ℚ) / 10

/-- A row of the `animals` table. -/
structure Animal where
  ear_tag : String
  farm_name : String
  birth_date : Option Date
deriving DecidableEq, Repr

/-- A row of the `milk_yield` table. -/
structure MilkRec where
  ear_tag : String
  record_date : Date
  record_year : Int
  yield_value : ℚ
deriving DecidableEq, Repr

/-- The two tables the engine reads. -/
structure DB where
  animals : List Animal
  milk_yield : List MilkRec
deriving DecidableEq, Repr

/-- Comparator of `ORDER BY ear_tag` for `load_animals`. -/
def tagLe (a b : Animal) : Prop := a.ear_tag ≤ b.ear_tag

instance : DecidableRel tagLe := fun a b => by unfold tagLe; infer_instance

instance : IsTotal Animal tagLe := ⟨fun a b => le_total a.ear_tag b.ear_tag⟩

instance : IsTrans Animal tagLe := ⟨fun _ _ _ h h' => le_trans h h'⟩

/-- Comparator of `ORDER BY record_date` for the 6-month detail query. -/
def recDateLe (a b : MilkRec) : Prop := dateLe a.record_date b.record_date

instance : DecidableRel recDateLe := fun a b => by unfold recDateLe; infer_instance

instance : IsTotal MilkRec recDateLe :=
  ⟨fun a b => IsTotal.total (r := dateLe) a.record_date b.record_date⟩

instance : IsTrans MilkRec recDateLe :=
  ⟨fun _ _ _ h h' => IsTrans.trans (r := dateLe) _ _ _ h h'⟩

/-- The loader `load_animals`: `SELECT ear_tag, birth_date FROM animals WHERE farm_name
= ? ORDER BY ear_tag` (the embedding keeps whole rows). -/
def load_animals (db : DB) (farm : String) : List Animal :=
  List.insertionSort tagLe (db.animals.filter (fun a => a.farm_name = farm))

/-- The rows of `milk_yield m JOIN animals a ON m.ear_tag = a.ear_tag WHERE
a.farm_name = ?`: each yield record occurs once per animal row it joins
with. -/
def farmJoin (db : DB) (farm : String) : List MilkRec :=
  db.milk_yield.flatMap (fun r =>
    (db.animals.filter
      (fun a => a.ear_tag = r.ear_tag ∧ a.farm_name = farm)).map (fun _ => r))

/-- The `WHERE ear_tag = ?` scope of the animal-level queries. -/
def animalRecs (db : DB) (tag : String) : List MilkRec :=
  db.milk_yield.filter (fun r => r.ear_tag = tag)

/-- SQL `COALESCE(SUM(yield_value), 0)` over a record list. -/
def totalOf (l : List MilkRec) : ℚ := (l.map (·.yield_value)).sum

/-- SQL `COUNT(DISTINCT record_date)` over a record list. -/
def distinctDays (l : List MilkRec) : Nat := (l.map (·.record_date)).dedup.length

/-- SQL `COUNT(DISTINCT ear_tag)` over a record list. -/
def distinctCows (l : List MilkRec) : Nat := (l.map (·.ear_tag)).dedup.length

/-- Farm `total_liters`. -/
def farmTotal (db : DB) (farm : String) : ℚ := totalOf (farmJoin db farm)

/-- Farm `lactation_days`. -/
def farmDays (db : DB) (farm : String) : Nat := distinctDays (farmJoin db farm)

/-- Animal `total_liters`. -/
def animalTotal (db : DB) (tag : String) : ℚ := totalOf (animalRecs db tag)

/-- Animal `lactation_days`. -/
def animalDays (db : DB) (tag : String) : Nat := distinctDays (animalRecs db tag)

/-- SQL `GROUP BY record_year ORDER BY record_year`: the distinct years of the
scope, ascending. -/
def yearKeys (l : List MilkRec) : List Int :=
  List.insertionSort (· ≤ ·) (l.map (·.record_year)).dedup

/-- The records of one `record_year` group. -/
def yearGroup (l : List MilkRec) (y : Int) : List MilkRec :=
  l.filter (fun r => r.record_year = y)

/-- A row of the farm `df_year` table. -/
structure FarmYearRow where
  year : Int
  liters : ℚ
  days : Nat
  cows : Nat
  avg_daily : ℚ
deriving DecidableEq, Repr

/-- A row of the animal `df_year` table. -/
structure AnimalYearRow where
  year : Int
  liters : ℚ
  days : Nat
  avg_daily : ℚ
deriving DecidableEq, Repr

/-- Farm `df_year` with the appended `avg_daily` column:
`(df_year["liters"] / df_year["days"]).round(1)`. -/
def farmYearTable (db : DB) (farm : String) : List FarmYearRow :=
  (yearKeys (farmJoin db farm)).map (fun y =>
    let g := yearGroup (farmJoin db farm) y
    { year := y, liters := totalOf g, days := distinctDays g,
      cows := distinctCows g,
      avg_daily := pandasRound1 (totalOf g / (distinctDays g : ℚ)) })

/-- Animal `df_year` with the appended `avg_daily` column. -/
def animalYearTable (db : DB) (tag : String) : List AnimalYearRow :=
  (yearKeys (animalRecs db tag)).map (fun y =>
    let g := yearGroup (animalRecs db tag) y
    { year := y, liters := totalOf g, days := distinctDays g,
      avg_daily := pandasRound1 (totalOf g / (distinctDays g : ℚ)) })

/-- The filter `record_date >= since` of the trend queries. -/
def window (l : List MilkRec) (since : Date) : List MilkRec :=
  l.filter (fun r => dateLe since r.record_date)

/-- SQL `GROUP BY month ORDER BY month`: distinct `%Y-%m` buckets, ascending. -/
def monthKeys (l : List MilkRec) : List (Nat × Nat) :=
  List.insertionSort monthLe (l.map (fun r => monthKey r.record_date)).dedup

/-- The records of one month bucket. -/
def monthGroup (l : List MilkRec) (mo : Nat × Nat) : List MilkRec :=
  l.filter (fun r => monthKey r.record_date = mo)

/-- The table `df_12mo` before the merge: per-month `SUM(yield_value)`, then
`.round(0).astype(int)`. -/
def litersSeries (l : List MilkRec) : List ((Nat × Nat) × ℤ) :=
  (monthKeys l).map (fun mo => (mo, rhe (totalOf (monthGroup l mo))))

/-- Farm `df_count`: per-month `COUNT(DISTINCT m.ear_tag)`. -/
def farmSessionSeries (l : List MilkRec) : List ((Nat × Nat) × Nat) :=
  (monthKeys l).map (fun mo => (mo, distinctCows (monthGroup l mo)))

/-- Animal `df_sessions`: per-month `COUNT(*)`. -/
def animalSessionSeries (l : List MilkRec) : List ((Nat × Nat) × Nat) :=
  (monthKeys l).map (fun mo => (mo, (monthGroup l mo).length))

/-- A row of the merged 12-month trend table. -/
structure TrendRow where
  month : Nat × Nat
  liters : ℤ
  sessions : Nat
deriving DecidableEq, Repr

/-- Right-hand lookup of the pandas left merge: the `sessions` value joined
to a month, `0` (`fillna(0)`) when the right table has no row for it. -/
def sessionsAt (counts : List ((Nat × Nat) × Nat)) (mo : Nat × Nat) : Nat :=
  match counts.find? (fun c => c.1 = mo) with
  | some c => c.2
  | none => 0

/-- Left-hand lookup with an `Int` 0 default, used to state the merge
contract. -/
def litersAt (liters : List ((Nat × Nat) × ℤ)) (mo : Nat × Nat) : ℤ :=
  match liters.find? (fun c => c.1 = mo) with
  | some c => c.2
  | none => 0

/-- The merge `df_12mo.merge(df_count, ...)` (a left join on month) and its
`fillna(0)`, followed
by the int cast of `sessions`. -/
def mergeTrend (liters : List ((Nat × Nat) × ℤ))
    (counts : List ((Nat × Nat) × Nat)) : List TrendRow :=
  liters.map (fun p => { month := p.1, liters := p.2, sessions := sessionsAt counts p.1 })

/-- The farm 12-month trend (`df_12mo` as returned by `farm_yield_summary`);
`today` is `date.today()` at query time. -/
def farmTrend (db : DB) (farm : String) (today : Date) : List TrendRow :=
  let w := window (farmJoin db farm) (subDays today 365)
  mergeTrend (litersSeries w) (farmSessionSeries w)

/-- The animal 12-month trend (`df_12mo` as returned by
`animal_yield_summary`). -/
def animalTrend (db : DB) (tag : String) (today : Date) : List TrendRow :=
  let w := window (animalRecs db tag) (subDays today 365)
  mergeTrend (litersSeries w) (animalSessionSeries w)

/-- SQL `MIN(record_date)` (string minimum; `none` for an empty scope). -/
def minDateOf : List Date → Option Date
  | [] => none
  | d :: l =>
    some (match minDateOf l with
          | none => d
          | some mn => if dateLe d mn then d else mn)

/-- SQL `MAX(record_date)` (string maximum; `none` for an empty scope). -/
def maxDateOf : List Date → Option Date
  | [] => none
  | d :: l =>
    some (match maxDateOf l with
          | none => d
          | some mx => if dateLe mx d then d else mx)

/-- The `duration` of `animal_yield_summary`: `pd.to_datetime` parses the MIN
and MAX dates and the inclusive span `(d1 - d0).days + 1` is taken; when
parsing fails — the scope is empty (SQL NULL) or a bound is no calendar
date — the `except` branch falls back to the lactation-day count. -/
def animalDuration (db : DB) (tag : String) : ℤ :=
  match minDateOf ((animalRecs db tag).map (·.record_date)),
        maxDateOf ((animalRecs db tag).map (·.record_date)) with
  | some mn, some mx =>
    if mn.valid ∧ mx.valid then (dayNum mx : ℤ) - (dayNum mn : ℤ) + 1
    else (animalDays db tag : ℤ)
  | _, _ => (animalDays db tag : ℤ)

/-- SQL `MAX(yield_value)` (`none` over zero rows, as the SQL aggregate). -/
def maxQ : List ℚ → Option ℚ
  | [] => none
  | q :: l =>
    some (match maxQ l with
          | none => q
          | some m => max q m)

/-- SQL `MIN(yield_value)` (`none` over zero rows, as the SQL aggregate). -/
def minQ : List ℚ → Option ℚ
  | [] => none
  | q :: l =>
    some (match minQ l with
          | none => q
          | some m => min q m)

/-- The `stats` row: `ROUND(AVG(yield_value), 1)`, `MAX(yield_value)`,
`MIN(yield_value)`; all three SQL aggregates are NULL over zero rows. -/
structure AnimalStats where
  avg_daily : Option ℚ
  max_yield : Option ℚ
  min_yield : Option ℚ
deriving DecidableEq, Repr

/-- The descriptive-stats query of `animal_yield_summary`. -/
def animalStats (db : DB) (tag : String) : AnimalStats :=
  let ys := (animalRecs db tag).map (·.yield_value)
  if ys.isEmpty then ⟨none, none, none⟩
  else ⟨some (sqlRound1 (ys.sum / (ys.length : ℚ))), maxQ ys, minQ ys⟩

/-- The last-6-months detail `df_6mo`: records of the animal dated in the
trailing 180 days, ordered by date, projected to (Date, Liters). -/
def animalLast6 (db : DB) (tag : String) (today : Date) : List (Date × ℚ) :=
  (List.insertionSort recDateLe
    (window (animalRecs db tag) (subDays today 180))).map
    (fun r => (r.record_date, r.yield_value))

/-- The tuple `farm_yield_summary` returns. -/
def farm_yield_summary (db : DB) (farm : String) (today : Date) :
    ℚ × Nat × List FarmYearRow × List TrendRow :=
  (farmTotal db farm, farmDays db farm, farmYearTable db farm, farmTrend db farm today)

/-- The tuple `animal_yield_summary` returns. -/
def animal_yield_summary (db : DB) (tag : String) (today : Date) :
    ℚ × Nat × ℤ × List AnimalYearRow × List TrendRow × AnimalStats :=
  (animalTotal db tag, animalDays db tag, animalDuration db tag,
   animalYearTable db tag, animalTrend db tag today, animalStats db tag)

/-- The header of the exported annual CSV (`index := False`: these four
columns and nothing else). -/
def csvHeader : List String := ["Year", "Total Liters", "Days Milked", "Avg Daily (L)"]

/-- Round trip of a `"{:,.0f}"` cell: formatting rounds half-to-even to an
integer, and inserting then stripping thousands separators is lossless, so
re-parsing recovers exactly that integer. -/
def reparse0 (q : ℚ) : ℤ := rhe q

/-- Round trip of a `"{:,.1f}"` cell: one decimal is kept. -/
def reparse1 (q : ℚ) : ℚ := (rhe (10 * q) : ℚ) / 10

/-- A re-parsed row of the exported farm annual CSV. -/
structure CsvRow where
  year : Int
  liters : ℤ
  days : ℤ
  avg_daily : ℚ
deriving DecidableEq, Repr

/-- The exported farm annual CSV, its numeric cells re-parsed after stripping
the thousands separators. -/
def farmCsvReparsed (db : DB) (farm : String) : List CsvRow :=
  (farmYearTable db farm).map (fun r =>
    { year := r.year, liters := reparse0 r.liters, days := reparse0 (r.days : ℚ),
      avg_daily := reparse1 r.avg_daily })

/-! ## Concrete data for witnesses and counterexamples -/

/-- Demo database realising the spec's concrete scenario: farm
"Green Pastures" has animal "T001" with records (2023-01-10, 20 L),
(2023-01-10, 15 L), (2023-02-01, 18 L), plus a recordless second animal and a
second farm. -/
def demoDB : DB :=
  { animals := [⟨"T001", "Green Pastures", some ⟨2020, 1, 1⟩⟩,
                ⟨"T002", "Green Pastures", none⟩,
                ⟨"X9", "Hillside", none⟩],
    milk_yield := [⟨"T001", ⟨2023, 1, 10⟩, 2023, 20⟩,
                   ⟨"T001", ⟨2023, 1, 10⟩, 2023, 15⟩,
                   ⟨"T001", ⟨2023, 2, 1⟩, 2023, 18⟩] }

/-! ## Generic grouping lemmas -/

lemma sum_map_ite_zero {κ : Type} [DecidableEq κ] (keys : List κ) (k0 : κ)
    (x : ℚ) (hnd : keys.Nodup) (hk : k0 ∈ keys) :
    (keys.map (fun k => if k0 = k then x else 0)).sum = x := by
  induction keys with
  | nil => cases hk
  | cons k ks ih =>
    rcases List.nodup_cons.mp hnd with ⟨hkks, hndks⟩
    rcases List.mem_cons.mp hk with h | h
    · subst h
      have hz : (ks.map (fun k => if k0 = k then x else 0)).sum = 0 := by
        apply List.sum_eq_zero
        intro v hv
        rcases List.mem_map.mp hv with ⟨k, hkm, rfl⟩
        rw [if_neg]
        rintro rfl
        exact hkks hkm
      simp [hz]
    · have hne : ¬k0 = k := by rintro rfl; exact hkks h
      simp only [List.map_cons, List.sum_cons, if_neg hne, zero_add]
      exact ih hndks h

lemma sum_map_add_distrib {κ : Type} (keys : List κ) (g h : κ → ℚ) :
    (keys.map (fun k => g k + h k)).sum = (keys.map g).sum + (keys.map h).sum := by
  induction keys with
  | nil => simp
  | cons k ks ih => simp only [List.map_cons, List.sum_cons, ih]; ring

/-- Summing a quantity group by group over a duplicate-free list of keys that
covers every element gives the total over the whole list: the SQL `GROUP BY`
partitions its input. -/
lemma sum_over_groups {α κ : Type} [DecidableEq κ] (key : α → κ) (f : α → ℚ)
    (keys : List κ) (hnd : keys.Nodup) :
    ∀ l : List α, (∀ a ∈ l, key a ∈ keys) →
      (keys.map (fun k => ((l.filter (fun a => key a = k)).map f).sum)).sum
        = (l.map f).sum := by
  intro l
  induction l with
  | nil => intro _; simp
  | cons a t ih =>
    intro hcov
    have hmem : key a ∈ keys := hcov a (List.mem_cons_self a t)
    have hfun : ∀ k, (((a :: t).filter (fun x => key x = k)).map f).sum
        = (if key a = k then f a else 0) + ((t.filter (fun x => key x = k)).map f).sum := by
      intro k
      by_cases h : key a = k
      · simp [List.filter_cons, h]
      · simp [List.filter_cons, h]
    calc (keys.map (fun k => (((a :: t).filter (fun x => key x = k)).map f).sum)).sum
        = (keys.map (fun k => (if key a = k then f a else 0)
            + ((t.filter (fun x => key x = k)).map f).sum)).sum := by
          exact congrArg List.sum (List.map_congr_left (fun k _ => hfun k))
      _ = (keys.map (fun k => if key a = k then f a else 0)).sum
            + (keys.map (fun k => ((t.filter (fun x => key x = k)).map f).sum)).sum :=
          sum_map_add_distrib keys _ _
      _ = f a + (t.map f).sum := by
          rw [sum_map_ite_zero keys (key a) (f a) hnd hmem,
              ih (fun b hb => hcov b (List.mem_cons_of_mem a hb))]
      _ = ((a :: t).map f).sum := by rw [List.map_cons, List.sum_cons]

/-! ## Year-key lemmas -/

lemma yearKeys_nodup (l : List MilkRec) : (yearKeys l).Nodup :=
  (List.perm_insertionSort _ _).nodup_iff.mpr (List.nodup_dedup _)

lemma mem_yearKeys {l : List MilkRec} {y : Int} :
    y ∈ yearKeys l ↔ ∃ r ∈ l, r.record_year = y := by
  unfold yearKeys
  rw [(List.perm_insertionSort _ _).mem_iff, List.mem_dedup, List.mem_map]

lemma yearGroup_ne_nil {l : List MilkRec} {y : Int} (h : y ∈ yearKeys l) :
    yearGroup l y ≠ [] := by
  rcases mem_yearKeys.mp h with ⟨r, hr, hy⟩
  intro hnil
  have : r ∈ yearGroup l y := by
    unfold yearGroup
    exact List.mem_filter.mpr ⟨hr, by simpa using hy⟩
  rw [hnil] at this
  cases this

lemma distinctDays_pos {l : List MilkRec} (h : l ≠ []) : 1 ≤ distinctDays l := by
  unfold distinctDays
  rcases List.exists_mem_of_ne_nil l h with ⟨r, hr⟩
  have : r.record_date ∈ (l.map (·.record_date)).dedup :=
    List.mem_dedup.mpr (List.mem_map_of_mem _ hr)
  have := List.length_pos.mpr (List.ne_nil_of_mem this)
  omega

/-- The demo records as the farm join produces them (each record matches
exactly one animal row). -/
def demoRecs : List MilkRec :=
  [⟨"T001", ⟨2023, 1, 10⟩, 2023, 20⟩,
   ⟨"T001", ⟨2023, 1, 10⟩, 2023, 15⟩,
   ⟨"T001", ⟨2023, 2, 1⟩, 2023, 18⟩]

/-- The single annual row of the demo farm (spec scenario 7: 53 L over 2
distinct days, average 26.5). -/
def demoRow : FarmYearRow :=
  { year := 2023, liters := 53, days := 2, cows := 1, avg_daily := 53/2 }

/-- Concrete evaluation of the demo farm's annual table. -/
lemma demo_farmYearTable :
    farmYearTable demoDB "Green Pastures" = [demoRow] := by
  have hj : farmJoin demoDB "Green Pastures" = demoRecs := by decide
  have hk : yearKeys demoRecs = [2023] := by decide
  have hg : yearGroup demoRecs 2023 = demoRecs := by decide
  have hd : distinctDays demoRecs = 2 := by decide
  have hc : distinctCows demoRecs = 1 := by decide
  have ht : totalOf demoRecs = 53 := by
    norm_num [totalOf, demoRecs]
  unfold farmYearTable
  rw [hj, hk]
  simp only [List.map_cons, List.map_nil, hg, hd, hc, ht]
  norm_num [demoRow, pandasRound1, rhe]

/-! ## C1: annual averages are `round(liters / days, 1)` and days ≥ 1 -/

/-- C1: in the farm and the animal annual breakdown, every row's `avg_daily`
is the one-decimal rounding of `liters / days`, and the distinct-day count of
every row is at least 1 (each year group holds at least one record), so the
division is never evaluated with `days = 0` and the average is never
NaN/infinite. -/
theorem C1_annual_avg_daily (db : DB) (farm tag : String) :
    (∀ row ∈ farmYearTable db farm,
        row.avg_daily = pandasRound1 (row.liters / (row.days : ℚ)) ∧ 1 ≤ row.days) ∧
    (∀ row ∈ animalYearTable db tag,
        row.avg_daily = pandasRound1 (row.liters / (row.days : ℚ)) ∧ 1 ≤ row.days) := by
  constructor
  · intro row hrow
    rcases List.mem_map.mp hrow with ⟨y, hy, rfl⟩
    exact ⟨rfl, distinctDays_pos (yearGroup_ne_nil hy)⟩
  · intro row hrow
    rcases List.mem_map.mp hrow with ⟨y, hy, rfl⟩
    exact ⟨rfl, distinctDays_pos (yearGroup_ne_nil hy)⟩

/-- C1 witness: the 2023 row of the demo farm. -/
theorem C1_annual_avg_daily_witness :
    demoRow.avg_daily = pandasRound1 (demoRow.liters / (demoRow.days : ℚ))
      ∧ 1 ≤ demoRow.days :=
  (C1_annual_avg_daily demoDB "Green Pastures" "T001").1 demoRow
    (by rw [demo_farmYearTable]; exact List.mem_singleton.mpr rfl)

/-! ## C2: the annual breakdown partitions the farm total -/

/-- C2: for every farm, the per-year liters of the annual breakdown sum to
the farm's all-time total liters — grouping by `record_year` partitions the
records of the farm scope with no overlap and no omission. -/
theorem C2_annual_partition (db : DB) (farm : String) :
    ((farmYearTable db farm).map (·.liters)).sum = farmTotal db farm := by
  have h := sum_over_groups (fun r : MilkRec => r.record_year)
      (fun r : MilkRec => r.yield_value)
      (yearKeys (farmJoin db farm)) (yearKeys_nodup _) (farmJoin db farm)
      (fun r hr => mem_yearKeys.mpr ⟨r, hr, rfl⟩)
  calc ((farmYearTable db farm).map (·.liters)).sum
      = ((yearKeys (farmJoin db farm)).map
          (fun y => (((farmJoin db farm).filter
            (fun r => r.record_year = y)).map (·.yield_value)).sum)).sum := by
        unfold farmYearTable
        rw [List.map_map]
        exact congrArg List.sum (List.map_congr_left (fun y _ => rfl))
    _ = ((farmJoin db farm).map (·.yield_value)).sum := h
    _ = farmTotal db farm := rfl

/-! ## Month-key, window and merge lemmas -/

lemma monthKeys_nodup (l : List MilkRec) : (monthKeys l).Nodup :=
  (List.perm_insertionSort _ _).nodup_iff.mpr (List.nodup_dedup _)

lemma monthKeys_sorted (l : List MilkRec) : List.Sorted monthLe (monthKeys l) :=
  List.sorted_insertionSort _ _

lemma mem_monthKeys {l : List MilkRec} {mo : Nat × Nat} :
    mo ∈ monthKeys l ↔ ∃ r ∈ l, monthKey r.record_date = mo := by
  unfold monthKeys
  rw [(List.perm_insertionSort _ _).mem_iff, List.mem_dedup, List.mem_map]

lemma mem_window {l : List MilkRec} {since : Date} {r : MilkRec} :
    r ∈ window l since ↔ r ∈ l ∧ dateLe since r.record_date := by
  unfold window
  rw [List.mem_filter, decide_eq_true_eq]

lemma litersSeries_keys (l : List MilkRec) :
    (litersSeries l).map Prod.fst = monthKeys l := by
  unfold litersSeries
  rw [List.map_map]
  exact (List.map_congr_left (fun mo _ => rfl)).trans (List.map_id _)

lemma farmSessionSeries_keys (l : List MilkRec) :
    (farmSessionSeries l).map Prod.fst = monthKeys l := by
  unfold farmSessionSeries
  rw [List.map_map]
  exact (List.map_congr_left (fun mo _ => rfl)).trans (List.map_id _)

lemma animalSessionSeries_keys (l : List MilkRec) :
    (animalSessionSeries l).map Prod.fst = monthKeys l := by
  unfold animalSessionSeries
  rw [List.map_map]
  exact (List.map_congr_left (fun mo _ => rfl)).trans (List.map_id _)

lemma find?_of_mem_keyed {κ β : Type} [DecidableEq κ] (l : List (κ × β)) (k : κ) (v : β)
    (hnd : (l.map Prod.fst).Nodup) (hm : (k, v) ∈ l) :
    l.find? (fun c => c.1 = k) = some (k, v) := by
  induction l with
  | nil => cases hm
  | cons p t ih =>
    rw [List.map_cons, List.nodup_cons] at hnd
    rcases List.mem_cons.mp hm with h | h
    · subst h
      rw [List.find?_cons_of_pos]
      simp
    · have hne : ¬p.1 = k := by
        intro he
        exact hnd.1 (by rw [he]; exact List.mem_map.mpr ⟨(k, v), h, rfl⟩)
      rw [List.find?_cons_of_neg]
      · exact ih hnd.2 h
      · simp [hne]

lemma sessionsAt_eq {counts : List ((Nat × Nat) × Nat)} {mo : Nat × Nat} {v : Nat}
    (hnd : (counts.map Prod.fst).Nodup) (hm : (mo, v) ∈ counts) :
    sessionsAt counts mo = v := by
  unfold sessionsAt
  rw [find?_of_mem_keyed counts mo v hnd hm]

lemma litersAt_eq {liters : List ((Nat × Nat) × ℤ)} {mo : Nat × Nat} {v : ℤ}
    (hnd : (liters.map Prod.fst).Nodup) (hm : (mo, v) ∈ liters) :
    litersAt liters mo = v := by
  unfold litersAt
  rw [find?_of_mem_keyed liters mo v hnd hm]

/-- What one merged trend row holds, whatever the counts series is. -/
lemma mergeTrend_mem {l : List MilkRec} {counts : List ((Nat × Nat) × Nat)}
    {row : TrendRow} (hrow : row ∈ mergeTrend (litersSeries l) counts) :
    row.month ∈ monthKeys l
    ∧ row.liters = rhe (totalOf (monthGroup l row.month))
    ∧ row.sessions = sessionsAt counts row.month := by
  unfold mergeTrend at hrow
  rcases List.mem_map.mp hrow with ⟨p, hp, rfl⟩
  unfold litersSeries at hp
  rcases List.mem_map.mp hp with ⟨mo, hmo, rfl⟩
  exact ⟨hmo, rfl, rfl⟩

/-- The merged trend's month column is exactly the month-key list of the
windowed scope. -/
lemma mergeTrend_months (l : List MilkRec) (counts : List ((Nat × Nat) × Nat)) :
    (mergeTrend (litersSeries l) counts).map (·.month) = monthKeys l := by
  unfold mergeTrend litersSeries
  rw [List.map_map, List.map_map]
  exact (List.map_congr_left (fun mo _ => rfl)).trans (List.map_id _)

lemma monthKey_mono {a b : Date} (h : dateLe a b) :
    monthLe (monthKey a) (monthKey b) := by
  unfold dateLe at h
  dsimp only [monthKey, monthLe]
  omega

lemma litersSeries_lookup (l : List MilkRec) {mo : Nat × Nat}
    (hmo : mo ∈ monthKeys l) :
    litersAt (litersSeries l) mo = rhe (totalOf (monthGroup l mo)) := by
  have hmem : (mo, rhe (totalOf (monthGroup l mo))) ∈ litersSeries l := by
    unfold litersSeries
    exact List.mem_map_of_mem _ hmo
  exact litersAt_eq (by rw [litersSeries_keys]; exact monthKeys_nodup _) hmem

lemma farmSessionSeries_lookup (l : List MilkRec) {mo : Nat × Nat}
    (hmo : mo ∈ monthKeys l) :
    sessionsAt (farmSessionSeries l) mo = distinctCows (monthGroup l mo) := by
  have hmem : (mo, distinctCows (monthGroup l mo)) ∈ farmSessionSeries l := by
    unfold farmSessionSeries
    exact List.mem_map_of_mem _ hmo
  exact sessionsAt_eq (by rw [farmSessionSeries_keys]; exact monthKeys_nodup _) hmem

lemma animalSessionSeries_lookup (l : List MilkRec) {mo : Nat × Nat}
    (hmo : mo ∈ monthKeys l) :
    sessionsAt (animalSessionSeries l) mo = (monthGroup l mo).length := by
  have hmem : (mo, (monthGroup l mo).length) ∈ animalSessionSeries l := by
    unfold animalSessionSeries
    exact List.mem_map_of_mem _ hmo
  exact sessionsAt_eq (by rw [animalSessionSeries_keys]; exact monthKeys_nodup _) hmem

lemma farmTrend_eq (db : DB) (farm : String) (today : Date) :
    farmTrend db farm today
      = mergeTrend (litersSeries (window (farmJoin db farm) (subDays today 365)))
          (farmSessionSeries (window (farmJoin db farm) (subDays today 365))) := rfl

lemma animalTrend_eq (db : DB) (tag : String) (today : Date) :
    animalTrend db tag today
      = mergeTrend (litersSeries (window (animalRecs db tag) (subDays today 365)))
          (animalSessionSeries (window (animalRecs db tag) (subDays today 365))) := rfl

lemma rhe_intCast (n : ℤ) : rhe (n : ℚ) = n := by
  unfold rhe
  norm_num

/-! ## Concrete trend evaluations -/

/-- First demo trend row: January 2023, 35 L, 1 distinct animal. -/
def trendRowJan : TrendRow := { month := (2023, 1), liters := 35, sessions := 1 }

/-- Second demo trend row: February 2023, 18 L, 1 distinct animal. -/
def trendRowFeb : TrendRow := { month := (2023, 2), liters := 18, sessions := 1 }

/-- Evaluation of the demo farm's 12-month trend as of 2023-06-01. -/
lemma demo_farmTrend :
    farmTrend demoDB "Green Pastures" ⟨2023, 6, 1⟩ = [trendRowJan, trendRowFeb] := by
  have hw : window (farmJoin demoDB "Green Pastures") (subDays ⟨2023, 6, 1⟩ 365)
      = demoRecs := by decide
  have hk : monthKeys demoRecs = [(2023, 1), (2023, 2)] := by decide
  have hg1 : monthGroup demoRecs (2023, 1)
      = [⟨"T001", ⟨2023, 1, 10⟩, 2023, 20⟩, ⟨"T001", ⟨2023, 1, 10⟩, 2023, 15⟩] := by decide
  have hg2 : monthGroup demoRecs (2023, 2) = [⟨"T001", ⟨2023, 2, 1⟩, 2023, 18⟩] := by decide
  have hc1 : distinctCows [(⟨"T001", ⟨2023, 1, 10⟩, 2023, 20⟩ : MilkRec),
      ⟨"T001", ⟨2023, 1, 10⟩, 2023, 15⟩] = 1 := by decide
  have hc2 : distinctCows [(⟨"T001", ⟨2023, 2, 1⟩, 2023, 18⟩ : MilkRec)] = 1 := by decide
  have ht1 : totalOf [(⟨"T001", ⟨2023, 1, 10⟩, 2023, 20⟩ : MilkRec),
      ⟨"T001", ⟨2023, 1, 10⟩, 2023, 15⟩] = (35 : ℤ) := by norm_num [totalOf]
  have ht2 : totalOf [(⟨"T001", ⟨2023, 2, 1⟩, 2023, 18⟩ : MilkRec)] = (18 : ℤ) := by
    norm_num [totalOf]
  have hs1 : sessionsAt [((2023, 1), 1), ((2023, 2), 1)] (2023, 1) = 1 := by decide
  have hs2 : sessionsAt [((2023, 1), 1), ((2023, 2), 1)] (2023, 2) = 1 := by decide
  rw [farmTrend_eq, hw]
  unfold mergeTrend litersSeries farmSessionSeries
  rw [hk]
  simp only [List.map_cons, List.map_nil, hg1, hg2, hc1, hc2, ht1, ht2,
    rhe_intCast, hs1, hs2]
  rfl

/-- Database with one record dated after "today": 2024-06-15 seen from
2024-05-10. -/
def futureDB : DB :=
  { animals := [⟨"A1", "Sunny", none⟩],
    milk_yield := [⟨"A1", ⟨2024, 6, 15⟩, 2024, 10⟩] }

/-- Evaluation of the future-dated farm's 12-month trend as of 2024-05-10:
the June 2024 record is inside the window because the query only bounds
`record_date` from below. -/
lemma future_farmTrend :
    farmTrend futureDB "Sunny" ⟨2024, 5, 10⟩
      = [{ month := (2024, 6), liters := 10, sessions := 1 }] := by
  have hw : window (farmJoin futureDB "Sunny") (subDays ⟨2024, 5, 10⟩ 365)
      = [⟨"A1", ⟨2024, 6, 15⟩, 2024, 10⟩] := by decide
  have hk : monthKeys [(⟨"A1", ⟨2024, 6, 15⟩, 2024, 10⟩ : MilkRec)] = [(2024, 6)] := by decide
  have hg : monthGroup [(⟨"A1", ⟨2024, 6, 15⟩, 2024, 10⟩ : MilkRec)] (2024, 6)
      = [⟨"A1", ⟨2024, 6, 15⟩, 2024, 10⟩] := by decide
  have hc : distinctCows [(⟨"A1", ⟨2024, 6, 15⟩, 2024, 10⟩ : MilkRec)] = 1 := by decide
  have ht : totalOf [(⟨"A1", ⟨2024, 6, 15⟩, 2024, 10⟩ : MilkRec)] = (10 : ℤ) := by
    norm_num [totalOf]
  have hs : sessionsAt [((2024, 6), 1)] (2024, 6) = 1 := by decide
  rw [farmTrend_eq, hw]
  unfold mergeTrend litersSeries farmSessionSeries
  rw [hk]
  simp only [List.map_cons, List.map_nil, hg, hc, ht, rhe_intCast, hs]

/-! ## C3: the trend merge behaves as a full outer join on month -/

/-- C3: in both the farm and the animal 12-month trend, the merged output's
month set is the union of the months of the two input series, each output
row carries the liters and session values looked up by month with a `0`
default for a missing side, and the output is sorted by month ascending.
(The two series are grouped from the same windowed records, so they always
carry the same month set, and the left merge of the code realises the full
outer join on these inputs.) -/
theorem C3_trend_merge_full_outer (db : DB) (farm tag : String) (today : Date) :
    (∀ mo : Nat × Nat,
        mo ∈ (farmTrend db farm today).map (·.month)
          ↔ mo ∈ (litersSeries (window (farmJoin db farm) (subDays today 365))).map Prod.fst
            ∨ mo ∈ (farmSessionSeries (window (farmJoin db farm) (subDays today 365))).map Prod.fst)
    ∧ (∀ row ∈ farmTrend db farm today,
        row.liters = litersAt (litersSeries (window (farmJoin db farm) (subDays today 365))) row.month
          ∧ row.sessions = sessionsAt (farmSessionSeries (window (farmJoin db farm) (subDays today 365))) row.month)
    ∧ List.Sorted monthLe ((farmTrend db farm today).map (·.month))
    ∧ (∀ mo : Nat × Nat,
        mo ∈ (animalTrend db tag today).map (·.month)
          ↔ mo ∈ (litersSeries (window (animalRecs db tag) (subDays today 365))).map Prod.fst
            ∨ mo ∈ (animalSessionSeries (window (animalRecs db tag) (subDays today 365))).map Prod.fst)
    ∧ (∀ row ∈ animalTrend db tag today,
        row.liters = litersAt (litersSeries (window (animalRecs db tag) (subDays today 365))) row.month
          ∧ row.sessions = sessionsAt (animalSessionSeries (window (animalRecs db tag) (subDays today 365))) row.month)
    ∧ List.Sorted monthLe ((animalTrend db tag today).map (·.month)) := by
  refine ⟨?_, ?_, ?_, ?_, ?_, ?_⟩
  · intro mo
    rw [farmTrend_eq, mergeTrend_months, litersSeries_keys, farmSessionSeries_keys,
      or_self_iff]
  · intro row hrow
    rw [farmTrend_eq] at hrow
    obtain ⟨hmo, hl, hs⟩ := mergeTrend_mem hrow
    exact ⟨hl.trans (litersSeries_lookup _ hmo).symm, hs⟩
  · rw [farmTrend_eq, mergeTrend_months]
    exact monthKeys_sorted _
  · intro mo
    rw [animalTrend_eq, mergeTrend_months, litersSeries_keys, animalSessionSeries_keys,
      or_self_iff]
  · intro row hrow
    rw [animalTrend_eq] at hrow
    obtain ⟨hmo, hl, hs⟩ := mergeTrend_mem hrow
    exact ⟨hl.trans (litersSeries_lookup _ hmo).symm, hs⟩
  · rw [animalTrend_eq, mergeTrend_months]
    exact monthKeys_sorted _

/-- C3 witness: the January row of the demo farm trend carries exactly the
month-keyed lookups of the two series. -/
theorem C3_trend_merge_full_outer_witness :
    trendRowJan.liters
        = litersAt (litersSeries (window (farmJoin demoDB "Green Pastures")
            (subDays ⟨2023, 6, 1⟩ 365))) trendRowJan.month
      ∧ trendRowJan.sessions
        = sessionsAt (farmSessionSeries (window (farmJoin demoDB "Green Pastures")
            (subDays ⟨2023, 6, 1⟩ 365))) trendRowJan.month :=
  (C3_trend_merge_full_outer demoDB "Green Pastures" "T001" ⟨2023, 6, 1⟩).2.1
    trendRowJan (by rw [demo_farmTrend]; exact List.mem_cons_self _ _)

/-! ## C4: the 12-month window bounds (corrected) -/

/-- C4 as written is false: the SQL filter is only `record_date >= since`
with no upper bound, so a record dated after `today` does contribute a month
to the trend. Here the June 2024 record, dated after today = 2024-05-10,
produces the month (2024, 6), strictly after today's month — outside
`[today - 365 days, today]`. -/
theorem C4_counterexample :
    ∃ row ∈ farmTrend futureDB "Sunny" ⟨2024, 5, 10⟩,
      monthLt (monthKey ⟨2024, 5, 10⟩) row.month
        ∧ ∃ r ∈ futureDB.milk_yield,
            dateLt ⟨2024, 5, 10⟩ r.record_date ∧ monthKey r.record_date = row.month := by
  refine ⟨{ month := (2024, 6), liters := 10, sessions := 1 }, ?_, ?_, ?_⟩
  · rw [future_farmTrend]
    exact List.mem_cons_self _ _
  · decide
  · exact ⟨⟨"A1", ⟨2024, 6, 15⟩, 2024, 10⟩, by decide, by decide, by decide⟩

/-- C4 amended: every month of either 12-month trend comes from a record of
the scope dated on or after `today - 365 days` (so no month precedes that
bound's month); the window has no upper bound, so records dated after today
contribute as well (see the counterexample). -/
theorem C4_trend_window_lower_bound (db : DB) (farm tag : String) (today : Date) :
    (∀ mo ∈ (farmTrend db farm today).map (·.month),
        monthLe (monthKey (subDays today 365)) mo
          ∧ ∃ r ∈ farmJoin db farm,
              dateLe (subDays today 365) r.record_date ∧ monthKey r.record_date = mo)
    ∧ (∀ mo ∈ (animalTrend db tag today).map (·.month),
        monthLe (monthKey (subDays today 365)) mo
          ∧ ∃ r ∈ animalRecs db tag,
              dateLe (subDays today 365) r.record_date ∧ monthKey r.record_date = mo) := by
  constructor
  · intro mo hmo
    rw [farmTrend_eq, mergeTrend_months] at hmo
    rcases mem_monthKeys.mp hmo with ⟨r, hrw, hmk⟩
    rcases mem_window.mp hrw with ⟨hrj, hd⟩
    exact ⟨hmk ▸ monthKey_mono hd, r, hrj, hd, hmk⟩
  · intro mo hmo
    rw [animalTrend_eq, mergeTrend_months] at hmo
    rcases mem_monthKeys.mp hmo with ⟨r, hrw, hmk⟩
    rcases mem_window.mp hrw with ⟨hrj, hd⟩
    exact ⟨hmk ▸ monthKey_mono hd, r, hrj, hd, hmk⟩

/-- C4 witness: the amended bound at the demo farm's January month. -/
theorem C4_trend_window_lower_bound_witness :
    monthLe (monthKey (subDays ⟨2023, 6, 1⟩ 365)) (2023, 1)
      ∧ ∃ r ∈ farmJoin demoDB "Green Pastures",
          dateLe (subDays ⟨2023, 6, 1⟩ 365) r.record_date ∧ monthKey r.record_date = (2023, 1) :=
  (C4_trend_window_lower_bound demoDB "Green Pastures" "T001" ⟨2023, 6, 1⟩).1
    (2023, 1) (by rw [demo_farmTrend]; decide)

/-! ## C5: session counts mean distinct animals at farm scope, records at
animal scope -/

/-- C5: in the farm trend a month's session count is the number of distinct
ear tags with a record in that month of the window, while in the animal
trend it is the number of records in that month. -/
theorem C5_session_semantics (db : DB) (farm tag : String) (today : Date) :
    (∀ row ∈ farmTrend db farm today,
        row.sessions
          = distinctCows (monthGroup (window (farmJoin db farm) (subDays today 365)) row.month))
    ∧ (∀ row ∈ animalTrend db tag today,
        row.sessions
          = (monthGroup (window (animalRecs db tag) (subDays today 365)) row.month).length) := by
  constructor
  · intro row hrow
    rw [farmTrend_eq] at hrow
    obtain ⟨hmo, _, hs⟩ := mergeTrend_mem hrow
    rw [hs]
    exact farmSessionSeries_lookup _ hmo
  · intro row hrow
    rw [animalTrend_eq] at hrow
    obtain ⟨hmo, _, hs⟩ := mergeTrend_mem hrow
    rw [hs]
    exact animalSessionSeries_lookup _ hmo

/-- C5 witness: the demo farm's January session count is the distinct-animal
count of that month. -/
theorem C5_session_semantics_witness :
    trendRowJan.sessions
      = distinctCows (monthGroup (window (farmJoin demoDB "Green Pastures")
          (subDays ⟨2023, 6, 1⟩ 365)) trendRowJan.month) :=
  (C5_session_semantics demoDB "Green Pastures" "T001" ⟨2023, 6, 1⟩).1
    trendRowJan (by rw [demo_farmTrend]; exact List.mem_cons_self _ _)

/-! ## C6: empty scopes give zero totals and empty series, never an error -/

/-- C6: a farm scope with no matching yield records and an animal scope with
no records both return total = 0 (never null: `COALESCE` turns the empty SUM
into 0), lactation days = 0, and empty annual and trend series. -/
theorem C6_empty_scope (db : DB) (farm tag : String) (today : Date)
    (hf : farmJoin db farm = []) (ha : animalRecs db tag = []) :
    farmTotal db farm = 0 ∧ farmDays db farm = 0
      ∧ farmYearTable db farm = [] ∧ farmTrend db farm today = []
      ∧ animalTotal db tag = 0 ∧ animalDays db tag = 0
      ∧ animalYearTable db tag = [] ∧ animalTrend db tag today = [] := by
  refine ⟨?_, ?_, ?_, ?_, ?_, ?_, ?_, ?_⟩
  · simp [farmTotal, totalOf, hf]
  · simp [farmDays, distinctDays, hf]
  · simp [farmYearTable, yearKeys, hf]
  · rw [farmTrend_eq, hf]
    rfl
  · simp [animalTotal, totalOf, ha]
  · simp [animalDays, distinctDays, ha]
  · simp [animalYearTable, yearKeys, ha]
  · rw [animalTrend_eq, ha]
    rfl

/-- C6 witness: a farm name and an ear tag matching nothing in the demo
database. -/
theorem C6_empty_scope_witness :
    farmTotal demoDB "Nowhere" = 0 ∧ farmDays demoDB "Nowhere" = 0
      ∧ farmYearTable demoDB "Nowhere" = [] ∧ farmTrend demoDB "Nowhere" ⟨2023, 6, 1⟩ = []
      ∧ animalTotal demoDB "Z9" = 0 ∧ animalDays demoDB "Z9" = 0
      ∧ animalYearTable demoDB "Z9" = [] ∧ animalTrend demoDB "Z9" ⟨2023, 6, 1⟩ = [] :=
  C6_empty_scope demoDB "Nowhere" "Z9" ⟨2023, 6, 1⟩ (by decide) (by decide)

/-! ## Calendar monotonicity (for C7) -/

/-- One for a leap year, zero otherwise. -/
def leapBit (y : Nat) : Nat := if leapYear y then 1 else 0

lemma leapBit_le (y : Nat) : leapBit y ≤ 1 := by
  unfold leapBit
  split_ifs <;> omega

lemma valid_d_le {dt : Date} (h : dt.valid) : dt.d ≤ 31 := by
  obtain ⟨h1, h2, h3, h4, h5⟩ := h
  unfold daysInMonth at h5
  split_ifs at h5 <;> omega

lemma valid_d30 {dt : Date} (h : dt.valid)
    (hm : dt.m = 4 ∨ dt.m = 6 ∨ dt.m = 9 ∨ dt.m = 11) : dt.d ≤ 30 := by
  obtain ⟨h1, h2, h3, h4, h5⟩ := h
  unfold daysInMonth at h5
  split_ifs at h5 <;> omega

lemma valid_feb {dt : Date} (h : dt.valid) (hm : dt.m = 2) :
    dt.d ≤ 28 + leapBit dt.y := by
  obtain ⟨h1, h2, h3, h4, h5⟩ := h
  unfold daysInMonth at h5
  unfold leapBit
  split_ifs at h5 ⊢ <;> omega

lemma dateLe_refl (a : Date) : dateLe a a := by unfold dateLe; omega

lemma dateLe_trans {a b c : Date} (h : dateLe a b) (h' : dateLe b c) :
    dateLe a c := by
  unfold dateLe at h h' ⊢
  omega

lemma dateLe_total (a b : Date) : dateLe a b ∨ dateLe b a := by
  unfold dateLe
  omega

lemma date_eq_iff {a b : Date} : a = b ↔ a.y = b.y ∧ a.m = b.m ∧ a.d = b.d := by
  cases a
  cases b
  simp [Date.mk.injEq]

lemma dateLe_iff_lt_or_eq {a b : Date} : dateLe a b ↔ dateLt a b ∨ a = b := by
  rw [date_eq_iff]
  unfold dateLe dateLt
  omega

lemma date_trichotomy {a b : Date} (h : ¬a = b) : dateLt a b ∨ dateLt b a := by
  rw [date_eq_iff] at h
  unfold dateLt
  omega

lemma shiftY_le {a b : Date} (hlt : dateLt a b) : shiftY a ≤ shiftY b := by
  unfold dateLt at hlt
  unfold shiftY
  split_ifs <;> omega

/-- Arithmetic core of the day-of-year comparison, on raw components. -/
lemma doy_mono_core (y1 m1 d1 y2 m2 d2 : Nat)
    (ha2 : 1 ≤ m1) (ha3 : m1 ≤ 12) (ha4 : 1 ≤ d1) (hd31 : d1 ≤ 31)
    (hd30 : (m1 = 4 ∨ m1 = 6 ∨ m1 = 9 ∨ m1 = 11) → d1 ≤ 30)
    (hfeb : m1 = 2 → d1 ≤ 29)
    (hb2 : 1 ≤ m2) (hb3 : m2 ≤ 12) (hb4 : 1 ≤ d2)
    (hs : (if m1 ≤ 2 then y1 - 1 else y1) = (if m2 ≤ 2 then y2 - 1 else y2))
    (hy1 : 1 ≤ y1) (hy2 : 1 ≤ y2)
    (hlt : y1 < y2 ∨ (y1 = y2 ∧ (m1 < m2 ∨ (m1 = m2 ∧ d1 < d2)))) :
    (153 * ((m1 + 9) % 12) + 2) / 5 + (d1 - 1)
      < (153 * ((m2 + 9) % 12) + 2) / 5 + (d2 - 1) := by
  split_ifs at hs <;> interval_cases m1 <;> interval_cases m2 <;> omega

/-- Within one shifted year, strictly later valid dates have a strictly
larger day-of-year. -/
lemma doyOf_lt_of_same_shift {a b : Date} (ha : a.valid) (hb : b.valid)
    (hs : shiftY a = shiftY b) (hlt : dateLt a b) : doyOf a < doyOf b := by
  have hfeb : a.m = 2 → a.d ≤ 29 := by
    intro hm
    have h1 := valid_feb ha hm
    have h2 := leapBit_le a.y
    omega
  exact doy_mono_core a.y a.m a.d b.y b.m b.d ha.2.1 ha.2.2.1 ha.2.2.2.1
    (valid_d_le ha) (valid_d30 ha) hfeb hb.2.1 hb.2.2.1 hb.2.2.2.1 hs ha.1 hb.1 hlt

/-- One shifted year is 365 days long, plus one when its February (belonging
to the next calendar year) is leap. -/
lemma yearStart_succ (yy : Nat) :
    yearStart (yy + 1) = yearStart yy + 365 + leapBit (yy + 1) := by
  unfold yearStart leapBit leapYear
  split_ifs with h
  · omega
  · omega

lemma yearStart_add (yy k : Nat) : yearStart yy + 365 * k ≤ yearStart (yy + k) := by
  induction k with
  | zero => simp
  | succ n ih =>
    have h := yearStart_succ (yy + n)
    rw [← Nat.add_assoc]
    omega

/-- A valid date's day-of-year stays below its shifted year's length. -/
lemma doyOf_le {dt : Date} (h : dt.valid) :
    doyOf dt ≤ 364 + leapBit (shiftY dt + 1) := by
  have h1 : 1 ≤ dt.y := h.1
  have h2 : 1 ≤ dt.m := h.2.1
  have h3 : dt.m ≤ 12 := h.2.2.1
  have h4 : 1 ≤ dt.d := h.2.2.2.1
  have hda := valid_d_le h
  unfold doyOf mpOf shiftY
  by_cases hm2 : dt.m = 2
  · rw [if_pos (by omega)]
    have hyy : dt.y - 1 + 1 = dt.y := by omega
    rw [hyy]
    have := valid_feb h hm2
    omega
  · by_cases hm1 : dt.m = 1
    · rw [if_pos (by omega)]
      omega
    · rw [if_neg (by omega)]
      omega

/-- Strict monotonicity of the day number on valid dates. -/
lemma dayNum_lt {a b : Date} (ha : a.valid) (hb : b.valid) (hlt : dateLt a b) :
    dayNum a < dayNum b := by
  have hs : shiftY a ≤ shiftY b := shiftY_le hlt
  rcases Nat.lt_or_ge (shiftY a) (shiftY b) with h | h
  · have hdoya := doyOf_le ha
    have hys := yearStart_succ (shiftY a)
    have hadd := yearStart_add (shiftY a + 1) (shiftY b - (shiftY a + 1))
    have harg : shiftY a + 1 + (shiftY b - (shiftY a + 1)) = shiftY b := by omega
    rw [harg] at hadd
    unfold dayNum
    omega
  · have heq : shiftY a = shiftY b := by omega
    have hdoy := doyOf_lt_of_same_shift ha hb heq hlt
    unfold dayNum
    rw [heq]
    omega

lemma dayNum_le {a b : Date} (ha : a.valid) (hb : b.valid) (hle : dateLe a b) :
    dayNum a ≤ dayNum b := by
  rcases dateLe_iff_lt_or_eq.mp hle with h | h
  · exact le_of_lt (dayNum_lt ha hb h)
  · rw [h]

/-! ## Minimum / maximum date lemmas -/

lemma minDateOf_cons_some {l : List Date} {mn : Date}
    (h : minDateOf l = some mn) (d : Date) :
    minDateOf (d :: l) = some (if dateLe d mn then d else mn) := by
  unfold minDateOf
  rw [h]

lemma maxDateOf_cons_some {l : List Date} {mx : Date}
    (h : maxDateOf l = some mx) (d : Date) :
    maxDateOf (d :: l) = some (if dateLe mx d then d else mx) := by
  unfold maxDateOf
  rw [h]

lemma minDateOf_spec :
    ∀ l : List Date, l ≠ [] →
      ∃ mn, minDateOf l = some mn ∧ mn ∈ l ∧ ∀ d ∈ l, dateLe mn d := by
  intro l
  induction l with
  | nil => intro h; exact absurd rfl h
  | cons d t ih =>
    intro _
    rcases t with _ | ⟨e, t'⟩
    · refine ⟨d, rfl, List.mem_singleton.mpr rfl, ?_⟩
      intro x hx
      rcases List.mem_singleton.mp hx with rfl
      exact dateLe_refl _
    · obtain ⟨mn, hmn, hmem, hall⟩ := ih (by simp)
      rw [minDateOf_cons_some hmn d]
      by_cases hdm : dateLe d mn
      · rw [if_pos hdm]
        refine ⟨d, rfl, List.mem_cons_self _ _, ?_⟩
        intro x hx
        rcases List.mem_cons.mp hx with rfl | hx
        · exact dateLe_refl _
        · exact dateLe_trans hdm (hall x hx)
      · rw [if_neg hdm]
        refine ⟨mn, rfl, List.mem_cons_of_mem _ hmem, ?_⟩
        intro x hx
        rcases List.mem_cons.mp hx with rfl | hx
        · exact (dateLe_total _ mn).resolve_left hdm
        · exact hall x hx

lemma maxDateOf_spec :
    ∀ l : List Date, l ≠ [] →
      ∃ mx, maxDateOf l = some mx ∧ mx ∈ l ∧ ∀ d ∈ l, dateLe d mx := by
  intro l
  induction l with
  | nil => intro h; exact absurd rfl h
  | cons d t ih =>
    intro _
    rcases t with _ | ⟨e, t'⟩
    · refine ⟨d, rfl, List.mem_singleton.mpr rfl, ?_⟩
      intro x hx
      rcases List.mem_singleton.mp hx with rfl
      exact dateLe_refl _
    · obtain ⟨mx, hmx, hmem, hall⟩ := ih (by simp)
      rw [maxDateOf_cons_some hmx d]
      by_cases hdm : dateLe mx d
      · rw [if_pos hdm]
        refine ⟨d, rfl, List.mem_cons_self _ _, ?_⟩
        intro x hx
        rcases List.mem_cons.mp hx with rfl | hx
        · exact dateLe_refl _
        · exact dateLe_trans (hall x hx) hdm
      · rw [if_neg hdm]
        refine ⟨mx, rfl, List.mem_cons_of_mem _ hmem, ?_⟩
        intro x hx
        rcases List.mem_cons.mp hx with rfl | hx
        · exact (dateLe_total mx _).resolve_left hdm
        · exact hall x hx

/-- A duplicate-free list of valid dates lying between `mn` and `mx` has at
most `dayNum mx + 1 - dayNum mn` elements. -/
lemma nodup_length_le_span {D : List Date} (hnd : D.Nodup)
    (hval : ∀ d ∈ D, d.valid) {mn mx : Date} (hmnv : mn.valid) (hmxv : mx.valid)
    (hlb : ∀ d ∈ D, dateLe mn d) (hub : ∀ d ∈ D, dateLe d mx) :
    D.length ≤ dayNum mx + 1 - dayNum mn := by
  have hinj : ∀ x ∈ D, ∀ y ∈ D, dayNum x = dayNum y → x = y := by
    intro x hx y hy hxy
    by_contra hne
    rcases date_trichotomy hne with h | h
    · exact absurd hxy (Nat.ne_of_lt (dayNum_lt (hval x hx) (hval y hy) h))
    · exact absurd hxy.symm (Nat.ne_of_lt (dayNum_lt (hval y hy) (hval x hx) h))
  have hmap : (D.map dayNum).Nodup := List.Nodup.map_on hinj hnd
  have hsubset : (D.map dayNum).toFinset ⊆ Finset.Icc (dayNum mn) (dayNum mx) := by
    intro z hz
    rcases List.mem_map.mp (List.mem_toFinset.mp hz) with ⟨d, hd, rfl⟩
    exact Finset.mem_Icc.mpr
      ⟨dayNum_le hmnv (hval d hd) (hlb d hd), dayNum_le (hval d hd) hmxv (hub d hd)⟩
  have hcard := Finset.card_le_card hsubset
  rw [List.toFinset_card_of_nodup hmap, Nat.card_Icc, List.length_map] at hcard
  exact hcard

/-! ## C7: active duration -/

/-- C7: for every animal whose stored dates are genuine calendar dates, the
duration is the inclusive span `max - min + 1` whenever the animal has at
least one record, falls back to the lactation-day count (0) when it has
none, and always dominates the lactation-day count. -/
theorem C7_duration (db : DB) (tag : String)
    (hv : ∀ r ∈ animalRecs db tag, r.record_date.valid) :
    (animalRecs db tag = [] →
        animalDuration db tag = (animalDays db tag : ℤ) ∧ animalDays db tag = 0)
    ∧ (animalRecs db tag ≠ [] →
        ∃ mn mx, minDateOf ((animalRecs db tag).map (·.record_date)) = some mn
          ∧ maxDateOf ((animalRecs db tag).map (·.record_date)) = some mx
          ∧ animalDuration db tag = (dayNum mx : ℤ) - (dayNum mn : ℤ) + 1)
    ∧ (animalDays db tag : ℤ) ≤ animalDuration db tag := by
  by_cases hnil : animalRecs db tag = []
  · refine ⟨fun _ => ⟨?_, ?_⟩, fun h => absurd hnil h, ?_⟩
    · simp [animalDuration, hnil, minDateOf]
    · simp [animalDays, distinctDays, hnil]
    · simp [animalDuration, animalDays, distinctDays, hnil, minDateOf]
  · have hmapne : (animalRecs db tag).map (·.record_date) ≠ [] := by
      simpa using hnil
    obtain ⟨mn, hmn, hmnm, hmnall⟩ := minDateOf_spec _ hmapne
    obtain ⟨mx, hmx, hmxm, hmxall⟩ := maxDateOf_spec _ hmapne
    have hvdates : ∀ d ∈ (animalRecs db tag).map (·.record_date), d.valid := by
      intro d hd
      rcases List.mem_map.mp hd with ⟨r, hr, rfl⟩
      exact hv r hr
    have hmnv : mn.valid := hvdates mn hmnm
    have hmxv : mx.valid := hvdates mx hmxm
    have hdur : animalDuration db tag = (dayNum mx : ℤ) - (dayNum mn : ℤ) + 1 := by
      unfold animalDuration
      rw [hmn, hmx]
      show (if mn.valid ∧ mx.valid then (dayNum mx : ℤ) - (dayNum mn : ℤ) + 1
        else (animalDays db tag : ℤ)) = (dayNum mx : ℤ) - (dayNum mn : ℤ) + 1
      rw [if_pos (And.intro hmnv hmxv)]
    refine ⟨fun h => absurd h hnil, fun _ => ⟨mn, mx, hmn, hmx, hdur⟩, ?_⟩
    have hspan : ((animalRecs db tag).map (·.record_date)).dedup.length
        ≤ dayNum mx + 1 - dayNum mn := by
      refine nodup_length_le_span (List.nodup_dedup _)
        (fun d hd => hvdates d (List.mem_dedup.mp hd)) hmnv hmxv
        (fun d hd => hmnall d (List.mem_dedup.mp hd))
        (fun d hd => hmxall d (List.mem_dedup.mp hd))
    have hmnmx : dayNum mn ≤ dayNum mx := dayNum_le hmnv hmxv (hmnall mx hmxm)
    rw [hdur]
    unfold animalDays distinctDays
    omega

/-- C7 witness: the demo animal (23-day span, 2 lactation days). -/
theorem C7_duration_witness :
    (animalDays demoDB "T001" : ℤ) ≤ animalDuration demoDB "T001" :=
  (C7_duration demoDB "T001" (by decide)).2.2

/-! ## C8: an animal with zero records -/

/-- C8: for an animal with no yield records, the aggregator returns total 0,
lactation days 0, duration 0, NULL descriptive stats, an empty 12-month
trend and an empty last-6-months detail list. -/
theorem C8_zero_records (db : DB) (tag : String) (today : Date)
    (h : animalRecs db tag = []) :
    animalTotal db tag = 0 ∧ animalDays db tag = 0 ∧ animalDuration db tag = 0
      ∧ animalStats db tag = ⟨none, none, none⟩
      ∧ animalTrend db tag today = [] ∧ animalLast6 db tag today = [] := by
  refine ⟨?_, ?_, ?_, ?_, ?_, ?_⟩
  · simp [animalTotal, totalOf, h]
  · simp [animalDays, distinctDays, h]
  · simp [animalDuration, animalDays, distinctDays, h, minDateOf]
  · simp [animalStats, h]
  · rw [animalTrend_eq, h]
    rfl
  · simp [animalLast6, h, window]

/-- C8 witness: the demo animal "T002", which is registered but has no
records. -/
theorem C8_zero_records_witness :
    animalTotal demoDB "T002" = 0 ∧ animalDays demoDB "T002" = 0
      ∧ animalDuration demoDB "T002" = 0
      ∧ animalStats demoDB "T002" = ⟨none, none, none⟩
      ∧ animalTrend demoDB "T002" ⟨2023, 6, 1⟩ = []
      ∧ animalLast6 demoDB "T002" ⟨2023, 6, 1⟩ = [] :=
  C8_zero_records demoDB "T002" ⟨2023, 6, 1⟩ (by decide)

/-! ## C9: the CSV round trip (corrected) -/

lemma reparse0_natCast (n : ℕ) : reparse0 (n : ℚ) = (n : ℤ) := by
  unfold reparse0
  have h : ((n : ℚ)) = (((n : ℤ) : ℤ) : ℚ) := by norm_cast
  rw [h, rhe_intCast]

lemma reparse1_round1 (q : ℚ) : reparse1 (pandasRound1 q) = pandasRound1 q := by
  unfold reparse1 pandasRound1
  have h : (10 : ℚ) * ((rhe (10 * q) : ℚ) / 10) = ((rhe (10 * q) : ℤ) : ℚ) := by
    ring
  rw [h, rhe_intCast]

/-- Database whose farm has a single non-integral annual liters value
(20.4 L). -/
def csvDB : DB :=
  { animals := [⟨"C1", "Creek", none⟩],
    milk_yield := [⟨"C1", ⟨2023, 3, 5⟩, 2023, 102/5⟩] }

lemma csv_farmYearTable :
    farmYearTable csvDB "Creek"
      = [{ year := 2023, liters := 102/5, days := 1, cows := 1, avg_daily := 102/5 }] := by
  have hj : farmJoin csvDB "Creek" = [⟨"C1", ⟨2023, 3, 5⟩, 2023, 102/5⟩] := rfl
  have hk : yearKeys [(⟨"C1", ⟨2023, 3, 5⟩, 2023, 102/5⟩ : MilkRec)] = [2023] := rfl
  have hg : yearGroup [(⟨"C1", ⟨2023, 3, 5⟩, 2023, 102/5⟩ : MilkRec)] 2023
      = [⟨"C1", ⟨2023, 3, 5⟩, 2023, 102/5⟩] := rfl
  have hd : distinctDays [(⟨"C1", ⟨2023, 3, 5⟩, 2023, 102/5⟩ : MilkRec)] = 1 := rfl
  have hc : distinctCows [(⟨"C1", ⟨2023, 3, 5⟩, 2023, 102/5⟩ : MilkRec)] = 1 := rfl
  unfold farmYearTable
  rw [hj, hk]
  simp only [List.map_cons, List.map_nil, hg, hd, hc]
  norm_num [totalOf, pandasRound1, rhe]

lemma csv_farmCsvReparsed :
    farmCsvReparsed csvDB "Creek"
      = [{ year := 2023, liters := 20, days := 1, avg_daily := 102/5 }] := by
  unfold farmCsvReparsed
  rw [csv_farmYearTable]
  simp only [List.map_cons, List.map_nil]
  norm_num [reparse0, reparse1, rhe]

/-- C9 as written is false: annual liters are sums of `REAL` yields and the
CSV formats them with zero decimals, so a fractional liters value (here
20.4) re-parses to its integer rounding 20, not to the original value. -/
theorem C9_counterexample :
    (farmYearTable csvDB "Creek").map (·.liters) = [102/5]
      ∧ (farmCsvReparsed csvDB "Creek").map (·.liters) = [20]
      ∧ ¬((20 : ℚ) = 102/5) := by
  refine ⟨?_, ?_, by norm_num⟩
  · rw [csv_farmYearTable]
    norm_num
  · rw [csv_farmCsvReparsed]
    norm_num

/-- C9 amended: the exported CSV has exactly the four columns Year,
Total Liters, Days Milked, Avg Daily (L) and no index column; re-parsing the
numeric cells after stripping thousands separators reproduces days exactly,
liters up to rounding to the nearest integer — exactly whenever the liters
value is a whole number — and the stored one-decimal average exactly (hence
within 0.05). -/
theorem C9_csv_roundtrip (db : DB) (farm : String) :
    csvHeader = ["Year", "Total Liters", "Days Milked", "Avg Daily (L)"]
    ∧ (farmCsvReparsed db farm).length = (farmYearTable db farm).length
    ∧ (∀ r ∈ farmYearTable db farm,
        ((⟨r.year, reparse0 r.liters, (r.days : ℤ), r.avg_daily⟩ : CsvRow)
            ∈ farmCsvReparsed db farm)
        ∧ (∀ n : ℤ, r.liters = (n : ℚ) → reparse0 r.liters = n)
        ∧ |reparse1 r.avg_daily - r.avg_daily| ≤ 1/20) := by
  refine ⟨rfl, ?_, ?_⟩
  · unfold farmCsvReparsed
    rw [List.length_map]
  · intro r hr
    have havg : reparse1 r.avg_daily = r.avg_daily := by
      rcases List.mem_map.mp hr with ⟨y, _, rfl⟩
      exact reparse1_round1 _
    refine ⟨?_, ?_, ?_⟩
    · have hrow : ((⟨r.year, reparse0 r.liters, reparse0 (r.days : ℚ),
          reparse1 r.avg_daily⟩ : CsvRow) ∈ farmCsvReparsed db farm) := by
        unfold farmCsvReparsed
        exact List.mem_map_of_mem _ hr
      rw [reparse0_natCast, havg] at hrow
      exact hrow
    · intro n hn
      rw [hn]
      exact rhe_intCast n
    · rw [havg]
      simp

/-- C9 witness: the demo farm's CSV row. -/
theorem C9_csv_roundtrip_witness :
    (⟨demoRow.year, reparse0 demoRow.liters, (demoRow.days : ℤ),
        demoRow.avg_daily⟩ : CsvRow) ∈ farmCsvReparsed demoDB "Green Pastures" :=
  ((C9_csv_roundtrip demoDB "Green Pastures").2.2 demoRow
    (by rw [demo_farmYearTable]; exact List.mem_singleton.mpr rfl)).1

/-! ## C10: farm totals are the sum of animal totals -/

lemma count_filter_decide {α : Type} [DecidableEq α] (q : α → Prop)
    [DecidablePred q] (r : α) (l : List α) :
    List.count r (l.filter (fun a => q a)) = if q r then List.count r l else 0 := by
  by_cases h : q r
  · rw [if_pos h, List.count_filter (by simpa using h)]
  · rw [if_neg h, List.count_eq_zero]
    intro hc
    exact h (by simpa using (List.mem_filter.mp hc).2)

lemma count_flatMap {α β : Type} [DecidableEq β] (l : List α) (g : α → List β)
    (r : β) :
    List.count r (l.flatMap g) = (l.map (fun a => List.count r (g a))).sum := by
  induction l with
  | nil => simp
  | cons a t ih => simp [List.flatMap_cons, List.count_append, ih]

lemma sum_ite_count {α : Type} [DecidableEq α] (K : ℕ) (r : α) :
    ∀ l : List α, (l.map (fun s => if s = r then K else 0)).sum = K * List.count r l := by
  intro l
  induction l with
  | nil => simp
  | cons s t ih =>
    by_cases h : s = r
    · subst h
      rw [List.map_cons, List.sum_cons, if_pos rfl, ih, List.count_cons_self]
      ring
    · rw [List.map_cons, List.sum_cons, if_neg h, ih,
        List.count_cons_of_ne (fun he => h he.symm)]
      ring

lemma sum_ite_length {α : Type} (q : α → Prop) [DecidablePred q] (K : ℕ) :
    ∀ l : List α, (l.map (fun a => if q a then K else 0)).sum
      = (l.filter (fun a => q a)).length * K := by
  intro l
  induction l with
  | nil => simp
  | cons a t ih =>
    by_cases h : q a
    · rw [List.map_cons, List.sum_cons, if_pos h, ih,
        List.filter_cons_of_pos (by simpa using h), List.length_cons]
      ring
    · rw [List.map_cons, List.sum_cons, if_neg h, ih,
        List.filter_cons_of_neg (by simpa using h)]
      ring

lemma count_farmJoin (db : DB) (farm : String) (r : MilkRec) :
    List.count r (farmJoin db farm)
      = (db.animals.filter (fun a => a.ear_tag = r.ear_tag ∧ a.farm_name = farm)).length
        * List.count r db.milk_yield := by
  unfold farmJoin
  rw [count_flatMap]
  have hterm : ∀ s : MilkRec,
      List.count r ((db.animals.filter
          (fun a => a.ear_tag = s.ear_tag ∧ a.farm_name = farm)).map (fun _ => s))
        = if s = r
          then (db.animals.filter
            (fun a => a.ear_tag = r.ear_tag ∧ a.farm_name = farm)).length
          else 0 := by
    intro s
    rw [List.map_const', List.count_replicate]
    by_cases hsr : s = r
    · subst hsr
      simp
    · rw [if_neg (by simpa using hsr), if_neg hsr]
  rw [List.map_congr_left (fun s _ => hterm s)]
  exact sum_ite_count _ r db.milk_yield

lemma count_loadFlatMap (db : DB) (farm : String) (r : MilkRec) :
    List.count r ((load_animals db farm).flatMap (fun a => animalRecs db a.ear_tag))
      = (db.animals.filter (fun a => a.ear_tag = r.ear_tag ∧ a.farm_name = farm)).length
        * List.count r db.milk_yield := by
  rw [count_flatMap]
  have hterm : ∀ a : Animal, List.count r (animalRecs db a.ear_tag)
      = if r.ear_tag = a.ear_tag then List.count r db.milk_yield else 0 := by
    intro a
    unfold animalRecs
    exact count_filter_decide (fun s => s.ear_tag = a.ear_tag) r db.milk_yield
  rw [List.map_congr_left (fun a _ => hterm a)]
  rw [sum_ite_length (fun a : Animal => r.ear_tag = a.ear_tag) _ (load_animals db farm)]
  have hperm : ((load_animals db farm).filter
      (fun a => r.ear_tag = a.ear_tag)).Perm
        ((db.animals.filter (fun a => a.farm_name = farm)).filter
          (fun a => r.ear_tag = a.ear_tag)) :=
    (List.perm_insertionSort tagLe _).filter _
  have hpred : ∀ a ∈ db.animals,
      (decide (r.ear_tag = a.ear_tag) && decide (a.farm_name = farm))
        = decide (a.ear_tag = r.ear_tag ∧ a.farm_name = farm) := by
    intro a _
    by_cases h1 : a.ear_tag = r.ear_tag
    · by_cases h2 : a.farm_name = farm
      · simp [h1, h2]
      · simp [h1, h2]
    · have h1' : ¬r.ear_tag = a.ear_tag := fun he => h1 he.symm
      simp [h1, h1']
  rw [hperm.length_eq, List.filter_filter, List.filter_congr hpred]

/-- The farm join splits, as a multiset, into the per-animal record lists of
the animals the farm lists. -/
lemma farmJoin_perm (db : DB) (farm : String) :
    (farmJoin db farm).Perm
      ((load_animals db farm).flatMap (fun a => animalRecs db a.ear_tag)) := by
  rw [List.perm_iff_count]
  intro r
  rw [count_farmJoin, count_loadFlatMap]

lemma sum_map_flatMap {α β : Type} (l : List α) (g : α → List β) (f : β → ℚ) :
    ((l.flatMap g).map f).sum = (l.map (fun a => ((g a).map f).sum)).sum := by
  induction l with
  | nil => simp
  | cons a t ih => simp [List.flatMap_cons, List.map_append, List.sum_append, ih]

/-- C10: assuming ear tags are unique in `animals` and every yield record
references an existing animal, the farm total is the sum of the per-animal
totals over exactly the animals `load_animals` returns, the farm's joined
record multiset is the disjoint union of those animals' record lists, and
distinct listed animals have distinct tags (so their record sets are
disjoint). -/
theorem C10_farm_total_splits (db : DB) (farm : String)
    (hu : (db.animals.map (·.ear_tag)).Nodup)
    (href : ∀ r ∈ db.milk_yield, ∃ a ∈ db.animals, a.ear_tag = r.ear_tag) :
    farmTotal db farm
        = ((load_animals db farm).map (fun a => animalTotal db a.ear_tag)).sum
      ∧ (farmJoin db farm).Perm
          ((load_animals db farm).flatMap (fun a => animalRecs db a.ear_tag))
      ∧ (load_animals db farm).Pairwise (fun a b => a.ear_tag ≠ b.ear_tag) := by
  refine ⟨?_, farmJoin_perm db farm, ?_⟩
  · unfold farmTotal totalOf
    rw [((farmJoin_perm db farm).map (·.yield_value)).sum_eq, sum_map_flatMap]
    exact congrArg List.sum (List.map_congr_left (fun a _ => rfl))
  · have h1 : db.animals.Pairwise (fun a b => a.ear_tag ≠ b.ear_tag) :=
      List.pairwise_map.mp hu
    have h2 := h1.filter (fun a => decide (a.farm_name = farm))
    exact ((List.perm_insertionSort tagLe _).pairwise_iff
      (fun h => Ne.symm h)).mpr h2

/-- C10 witness: the demo database (unique tags, all records referencing
existing animals). -/
theorem C10_farm_total_splits_witness :
    farmTotal demoDB "Green Pastures"
      = ((load_animals demoDB "Green Pastures").map
          (fun a => animalTotal demoDB a.ear_tag)).sum :=
  (C10_farm_total_splits demoDB "Green Pastures" (by decide) (by decide)).1

end Milk
